import Mathlib

/-!
Verification of the OptionsTrader decision core (signal engine,
contract selector, risk manager, position monitor) against its
natural-language specification.  Python floats are modelled as exact
rationals; Python `round` (banker's rounding) and `int` (truncation
toward zero) are modelled explicitly below.
-/

namespace OptionsTrader

/-- Banker's rounding to an integer (Python `round(x)` semantics:
round half to even). -/
def roundHalfEven (q : ℚ) : ℤ :=
  let f := ⌊q⌋
  let frac := q - f
  if frac < 1/2 then f
  else if 1/2 < frac then f + 1
  else if f % 2 = 0 then f else f + 1

/-- Python `round(x, 1)`. -/
def round1 (q : ℚ) : ℚ := (roundHalfEven (q * 10) : ℚ) / 10

/-- Python `round(x, 2)`. -/
def round2 (q : ℚ) : ℚ := (roundHalfEven (q * 100) : ℚ) / 100

/-- Python `int(x)` on a float: truncation toward zero. -/
def pytrunc (q : ℚ) : ℤ := if 0 ≤ q then ⌊q⌋ else -⌊-q⌋

theorem floor_rat_eq (z : ℤ) {q : ℚ} (h1 : (z : ℚ) ≤ q) (h2 : q < z + 1) :
    ⌊q⌋ = z := Int.floor_eq_iff.mpr ⟨h1, h2⟩

theorem roundHalfEven_eq_of_lt_half (z : ℤ) {q : ℚ}
    (h1 : (z : ℚ) ≤ q) (h2 : q < z + 1/2) : roundHalfEven q = z := by
  have hf : ⌊q⌋ = z := floor_rat_eq z h1 (by linarith)
  simp only [roundHalfEven, hf]
  rw [if_pos (by linarith)]

theorem roundHalfEven_eq_of_gt_half (z : ℤ) {q : ℚ}
    (h1 : (z : ℚ) + 1/2 < q) (h2 : q < z + 1) : roundHalfEven q = z + 1 := by
  have hf : ⌊q⌋ = z := floor_rat_eq z (by linarith) h2
  simp only [roundHalfEven, hf]
  rw [if_neg (by simp only [not_lt]; linarith), if_pos (by linarith)]

theorem roundHalfEven_intCast (z : ℤ) : roundHalfEven (z : ℚ) = z := by
  have hf : ⌊(z : ℚ)⌋ = z := Int.floor_intCast z
  simp only [roundHalfEven, hf]
  rw [if_pos (by norm_num)]

theorem pytrunc_eq_of_nonneg (z : ℤ) {q : ℚ} (h0 : 0 ≤ q)
    (h1 : (z : ℚ) ≤ q) (h2 : q < z + 1) : pytrunc q = z := by
  simp only [pytrunc, if_pos h0]
  exact floor_rat_eq z h1 h2

/-- Truncation toward zero never exceeds a nonnegative argument. -/
theorem pytrunc_le_of_nonneg {q : ℚ} (h : 0 ≤ q) : (pytrunc q : ℚ) ≤ q := by
  simp only [pytrunc, if_pos h]
  exact Int.floor_le q

/-- Truncation of anything strictly below one is at most zero. -/
theorem pytrunc_nonpos_of_lt_one {q : ℚ} (h : q < 1) : pytrunc q ≤ 0 := by
  by_cases h0 : 0 ≤ q
  · simp only [pytrunc, if_pos h0]
    have : ⌊q⌋ < 1 := by
      rw [Int.floor_lt]
      exact_mod_cast h
    omega
  · simp only [pytrunc, if_neg h0]
    push_neg at h0
    have : (0 : ℚ) ≤ -q := by linarith
    have h2 : (0 : ℤ) ≤ ⌊-q⌋ := by
      rw [Int.le_floor]; exact_mod_cast this
    omega

/-- Option trade direction as produced by the engine; the Python code
uses the strings CALL and PUT, with None for no direction.  A missing
direction is `Option.none` here. -/
inductive Dir
  | CALL
  | PUT
  deriving DecidableEq, Repr, Fintype

-- ── SignalEngine: cross-timeframe confluence (signal_engine.py 278-298) ──

/-- Count of timeframes voting a given direction; mirrors
`directions.count` over the list comprehension that drops None. -/
def dir_count (ds : List (Option Dir)) (d : Dir) : ℕ :=
  (ds.filterMap id).count d

/-- Confluence bonus from the three timeframe directions
(signal_engine.py `score_ticker`, lines 284-292). -/
def confluence_score (d1 d2 d3 : Option Dir) : ℕ :=
  let ds := [d1, d2, d3]
  let call_tfs := dir_count ds .CALL
  let put_tfs := dir_count ds .PUT
  if call_tfs = 3 then 4
  else if put_tfs = 3 then 4
  else if call_tfs = 2 then 2
  else if put_tfs = 2 then 2
  else 0

/-- Majority direction across the three timeframe votes
(signal_engine.py `score_ticker`, lines 294-298). -/
def final_direction (d1 d2 d3 : Option Dir) : Option Dir :=
  let ds := [d1, d2, d3]
  let call_tfs := dir_count ds .CALL
  let put_tfs := dir_count ds .PUT
  if call_tfs > put_tfs then some .CALL
  else if put_tfs > call_tfs then some .PUT
  else none

/-- Modelled from the spec: all three timeframe directions are
identical and non-NONE. -/
def allThreeAgreeSpec (d1 d2 d3 : Option Dir) : Prop :=
  d1 = d2 ∧ d2 = d3 ∧ d1 ≠ none

/-- Modelled from the spec: exactly two of the three timeframes agree
on a non-NONE direction. -/
def exactlyTwoAgreeSpec (d1 d2 d3 : Option Dir) : Prop :=
  dir_count [d1, d2, d3] .CALL = 2 ∨ dir_count [d1, d2, d3] .PUT = 2

instance (d1 d2 d3 : Option Dir) : Decidable (allThreeAgreeSpec d1 d2 d3) := by
  unfold allThreeAgreeSpec; infer_instance

instance (d1 d2 d3 : Option Dir) : Decidable (exactlyTwoAgreeSpec d1 d2 d3) := by
  unfold exactlyTwoAgreeSpec; infer_instance

/-- C5: the confluence score is exactly 4 iff all three timeframe
directions are identical and non-NONE, exactly 2 iff exactly two of the
three agree on a non-NONE direction, and 0 otherwise. -/
theorem confluence_score_characterization (d1 d2 d3 : Option Dir) :
    (confluence_score d1 d2 d3 = 4 ↔ allThreeAgreeSpec d1 d2 d3) ∧
    (confluence_score d1 d2 d3 = 2 ↔ exactlyTwoAgreeSpec d1 d2 d3) ∧
    (confluence_score d1 d2 d3 = 0 ↔
      ¬ allThreeAgreeSpec d1 d2 d3 ∧ ¬ exactlyTwoAgreeSpec d1 d2 d3) := by
  revert d1 d2 d3; decide

-- ── SignalEngine: per-timeframe scoring guard (signal_engine.py 163-165) ──

/-- One OHLCV bar of a price series. -/
structure Bar where
  op : ℚ
  hi : ℚ
  lo : ℚ
  cl : ℚ
  vol : ℚ
  deriving DecidableEq, Repr

/-- Result of scoring one timeframe. -/
structure TfResult where
  score : ℚ
  direction : Option Dir
  reasons : List String
  deriving DecidableEq, Repr

/-- Per-timeframe scorer (signal_engine.py `_score_timeframe`).  The
guard on insufficient history is taken verbatim from the source; the
thirty-bar-or-more indicator pipeline is abstracted as the parameter
`full`, so every theorem proved about the guard holds for every
possible instantiation of that pipeline. -/
def score_timeframe (full : List Bar → TfResult) (df : List Bar) : TfResult :=
  if df.isEmpty ∨ df.length < 30 then { score := 0, direction := none, reasons := [] }
  else full df

/-- C6: on any series of fewer than 30 bars (the empty series
included), the timeframe scorer returns score 0, no direction and no
reasons, for every possible indicator pipeline. -/
theorem score_timeframe_short_series (full : List Bar → TfResult)
    (df : List Bar) (h : df.length < 30) :
    score_timeframe full df = { score := 0, direction := none, reasons := [] } := by
  simp only [score_timeframe]
  rw [if_pos (Or.inr h)]

/-- Witness for C6 at a concrete pipeline and the empty series. -/
theorem score_timeframe_short_series_witness :
    score_timeframe (fun _ => { score := 7, direction := some .CALL, reasons := ["x"] }) []
      = { score := 0, direction := none, reasons := [] } :=
  score_timeframe_short_series _ [] (by decide)

-- ── RiskManager: dynamic limits (agent.py 289-304) ──

/-- Dynamic capital limit (agent.py `_dynamic_capital_limit`): base
capital plus 50 percent of gains above the base. -/
def dynamic_capital_limit (base balance : ℚ) : ℚ :=
  base + (max 0 (balance - base)) * (50/100)

/-- Dynamic max concurrent positions (agent.py
`_dynamic_max_positions`). -/
def dynamic_max_positions (balance : ℚ) : ℕ :=
  if balance ≥ 5000 then 5
  else if balance ≥ 2500 then 4
  else 3

/-- Dynamic daily loss limit (agent.py `_dynamic_daily_loss_limit`):
14 percent of portfolio value, rounded to cents. -/
def dynamic_daily_loss_limit (balance : ℚ) : ℚ :=
  round2 (balance * (14/100))

/-- C10: the dynamic capital limit equals base plus half the positive
part of the gains, never falls below the base, and both it and the
dynamic max-position step function are monotone in equity. -/
theorem dynamic_limits_monotone (base e1 e2 : ℚ) (h : e1 ≤ e2) :
    dynamic_capital_limit base e1 = base + (max 0 (e1 - base)) * (1/2) ∧
    base ≤ dynamic_capital_limit base e1 ∧
    dynamic_capital_limit base e1 ≤ dynamic_capital_limit base e2 ∧
    dynamic_max_positions e1 ≤ dynamic_max_positions e2 := by
  refine ⟨by norm_num [dynamic_capital_limit], ?_, ?_, ?_⟩
  · have h0 : (0 : ℚ) ≤ max 0 (e1 - base) := le_max_left 0 _
    simp only [dynamic_capital_limit]
    nlinarith
  · have hm : max 0 (e1 - base) ≤ max 0 (e2 - base) :=
      max_le_max le_rfl (by linarith)
    have h0 : (0 : ℚ) ≤ max 0 (e1 - base) := le_max_left 0 _
    simp only [dynamic_capital_limit]
    nlinarith
  · simp only [dynamic_max_positions]
    by_cases h5 : e1 ≥ 5000
    · rw [if_pos h5, if_pos (by linarith)]
    · by_cases h25 : e1 ≥ 2500
      · rw [if_neg h5, if_pos h25]
        by_cases h5b : e2 ≥ 5000
        · rw [if_pos h5b]; omega
        · rw [if_neg h5b, if_pos (by linarith)]
      · rw [if_neg h5, if_neg h25]
        by_cases h5b : e2 ≥ 5000
        · rw [if_pos h5b]; omega
        · by_cases h25b : e2 ≥ 2500
          · rw [if_neg h5b, if_pos h25b]; omega
          · rw [if_neg h5b, if_neg h25b]

/-- Witness for C10 at concrete equities 2000 and 6000. -/
theorem dynamic_limits_monotone_witness :
    dynamic_capital_limit 500 2000 = 500 + (max 0 (2000 - 500 : ℚ)) * (1/2) ∧
    (500 : ℚ) ≤ dynamic_capital_limit 500 2000 ∧
    dynamic_capital_limit 500 2000 ≤ dynamic_capital_limit 500 6000 ∧
    dynamic_max_positions 2000 ≤ dynamic_max_positions 6000 :=
  dynamic_limits_monotone 500 2000 6000 (by norm_num)

-- ── RiskManager: daily state machine and admission (agent.py 240-412) ──

/-- Static configuration consumed by the risk manager. -/
structure RMConfig where
  capital_limit : ℚ
  min_capital_to_trade : ℚ
  sandbox : Bool
  deriving DecidableEq, Repr

/-- Per-day risk state (agent.py `RiskManager.__init__`): start-of-day
equity snapshot, last reset day and the kill-switch flag.  Days are
abstracted as natural numbers (the code uses ISO date strings). -/
structure RiskState where
  start_of_day_capital : Option ℚ
  last_reset_date : Option ℕ
  killed_today : Bool
  deriving DecidableEq, Repr

/-- Denial and admission reasons; one constructor per distinct format
string the Python code can return. -/
inductive Reason
  | ok
  | killSwitchActive
  | killSwitchFired
  | insufficientCapital
  | maxPositions
  | costExceedsAvailable
  | costExceedsDynamicLimit
  | blockedCallBearRegime
  | blockedPutBullRegime
  deriving DecidableEq, Repr

/-- Lazy day rollover (agent.py `_reset_if_new_day`). -/
def reset_if_new_day (st : RiskState) (today : ℕ) (current_capital : ℚ) : RiskState :=
  if st.last_reset_date ≠ some today then
    { start_of_day_capital := some current_capital
      last_reset_date := some today
      killed_today := false }
  else st

/-- Portfolio value used by `check_daily_loss_limit` (agent.py lines
345-348): the account balance, except that in sandbox mode a balance
equal to the configured capital limit is treated as unavailable data
and the current capital is used as a proxy. -/
def portfolio_value (cfg : RMConfig) (balance current_capital : ℚ) : ℚ :=
  if balance = cfg.capital_limit ∧ cfg.sandbox then current_capital else balance

/-- Daily loss kill switch (agent.py `check_daily_loss_limit`).
`balance` is the value the external account-equity call returns during
this check.  Returns the updated state, whether trading is blocked, and
the reason. -/
def check_daily_loss_limit (cfg : RMConfig) (st : RiskState) (today : ℕ)
    (balance current_capital : ℚ) : RiskState × Bool × Reason :=
  let pv := portfolio_value cfg balance current_capital
  let st1 := reset_if_new_day st today pv
  if st1.killed_today then (st1, true, .killSwitchActive)
  else
    match st1.start_of_day_capital with
    | none => (st1, false, .ok)
    | some start =>
      if start - pv ≥ dynamic_daily_loss_limit balance then
        ({ st1 with killed_today := true }, true, .killSwitchFired)
      else (st1, false, .ok)

/-- Signal fields read by the risk checks. -/
structure SignalInfo where
  direction : Option Dir
  score : ℚ
  deriving DecidableEq, Repr

/-- Trade candidate fields read by the risk checks. -/
structure Trade where
  total_cost : ℚ
  signal : SignalInfo
  deriving DecidableEq, Repr

/-- Market regime classification. -/
inductive Regime
  | bull
  | bear
  | neutral
  deriving DecidableEq, Repr

/-- Trade admission decision (agent.py `can_trade`), checks in source
order: kill switch, minimum capital, position count, cost versus
available capital, cost versus dynamic capital limit, regime direction
filter. -/
def can_trade (cfg : RMConfig) (st : RiskState) (today : ℕ) (balance : ℚ)
    (open_positions : ℕ) (trade : Trade) (available_capital : ℚ)
    (regime : Regime) : RiskState × Bool × Reason :=
  let r := check_daily_loss_limit cfg st today balance available_capital
  if r.2.1 then (r.1, false, r.2.2)
  else if available_capital < cfg.min_capital_to_trade then
    (r.1, false, .insufficientCapital)
  else if open_positions ≥ dynamic_max_positions balance then
    (r.1, false, .maxPositions)
  else if trade.total_cost > available_capital then
    (r.1, false, .costExceedsAvailable)
  else if trade.total_cost > dynamic_capital_limit cfg.capital_limit balance then
    (r.1, false, .costExceedsDynamicLimit)
  else if regime = .bear ∧ trade.signal.direction = some .CALL ∧
      trade.signal.score < 16 then
    (r.1, false, .blockedCallBearRegime)
  else if regime = .bull ∧ trade.signal.direction = some .PUT ∧
      trade.signal.score < 16 then
    (r.1, false, .blockedPutBullRegime)
  else (r.1, true, .ok)

/-- C2: once the kill switch has fired on a day, every further check or
admission call on that day is denied with the kill-switch reason, for
every equity value; and the flag together with the start-of-day
snapshot is cleared exactly when a check first observes a new day (the
fresh day can only re-fire immediately when the dynamic daily loss
limit is nonpositive). -/
theorem kill_switch_daily_persistence (cfg : RMConfig) (st : RiskState)
    (today : ℕ) (balance cap : ℚ) (open_positions : ℕ) (trade : Trade)
    (regime : Regime) :
    (st.last_reset_date = some today ∧ st.killed_today = true →
      check_daily_loss_limit cfg st today balance cap
          = (st, true, .killSwitchActive) ∧
      (can_trade cfg st today balance open_positions trade cap regime).2
          = (false, .killSwitchActive)) ∧
    (st.last_reset_date ≠ some today →
      (check_daily_loss_limit cfg st today balance cap).1.last_reset_date
          = some today ∧
      (check_daily_loss_limit cfg st today balance cap).1.start_of_day_capital
          = some (portfolio_value cfg balance cap) ∧
      ((check_daily_loss_limit cfg st today balance cap).1.killed_today = true ↔
        dynamic_daily_loss_limit balance ≤ 0)) := by
  constructor
  · rintro ⟨hday, hkill⟩
    have hreset : reset_if_new_day st today (portfolio_value cfg balance cap) = st := by
      simp only [reset_if_new_day, hday, ne_eq, not_true_eq_false, if_false]
    have hchk : check_daily_loss_limit cfg st today balance cap
        = (st, true, .killSwitchActive) := by
      simp only [check_daily_loss_limit, hreset, hkill, if_true]
    refine ⟨hchk, ?_⟩
    simp only [can_trade, hchk, if_true]
  · intro hday
    have hreset : reset_if_new_day st today (portfolio_value cfg balance cap)
        = { start_of_day_capital := some (portfolio_value cfg balance cap)
            last_reset_date := some today
            killed_today := false } := by
      simp only [reset_if_new_day]
      rw [if_pos hday]
    by_cases hlim : dynamic_daily_loss_limit balance ≤ 0
    · have hge : portfolio_value cfg balance cap - portfolio_value cfg balance cap
          ≥ dynamic_daily_loss_limit balance := by
        simp only [sub_self, ge_iff_le]; exact hlim
      have hchk : check_daily_loss_limit cfg st today balance cap
          = ({ start_of_day_capital := some (portfolio_value cfg balance cap)
               last_reset_date := some today
               killed_today := true }, true, .killSwitchFired) := by
        simp only [check_daily_loss_limit, hreset]
        rw [if_neg (by simp), if_pos hge]
      rw [hchk]
      exact ⟨rfl, rfl, by simpa using hlim⟩
    · have hge : ¬ (portfolio_value cfg balance cap - portfolio_value cfg balance cap
          ≥ dynamic_daily_loss_limit balance) := by
        simp only [sub_self, ge_iff_le]; exact hlim
      have hchk : check_daily_loss_limit cfg st today balance cap
          = ({ start_of_day_capital := some (portfolio_value cfg balance cap)
               last_reset_date := some today
               killed_today := false }, false, .ok) := by
        simp only [check_daily_loss_limit, hreset]
        rw [if_neg (by simp), if_neg hge]
      rw [hchk]
      refine ⟨rfl, rfl, ?_⟩
      simp only [Bool.false_eq_true, false_iff]
      exact hlim

/-- Concrete risk configuration used in witnesses: the shipped
config.py values (capital limit 500, minimum tradable capital 20,
sandbox mode). -/
def cfgC : RMConfig := { capital_limit := 500, min_capital_to_trade := 20, sandbox := true }

/-- Concrete killed state on day 3. -/
def stKilled : RiskState :=
  { start_of_day_capital := some 500, last_reset_date := some 3, killed_today := true }

/-- Concrete non-killed state on day 3. -/
def stFresh : RiskState :=
  { start_of_day_capital := some 500, last_reset_date := some 3, killed_today := false }

/-- Concrete trade candidate: cost 100, CALL, score 16. -/
def tradeC : Trade :=
  { total_cost := 100, signal := { direction := some .CALL, score := 16 } }

/-- Witness for C2: a killed state stays denied on the same day even at
a recovered equity, and a check on the next day resets the snapshot and
the flag. -/
theorem kill_switch_daily_persistence_witness :
    (check_daily_loss_limit cfgC stKilled 3 400 450
        = (stKilled, true, .killSwitchActive) ∧
      (can_trade cfgC stKilled 3 400 0 tradeC 450 .neutral).2
        = (false, .killSwitchActive)) ∧
    ((check_daily_loss_limit cfgC stFresh 4 400 450).1.last_reset_date = some 4 ∧
      (check_daily_loss_limit cfgC stFresh 4 400 450).1.start_of_day_capital
        = some (portfolio_value cfgC 400 450) ∧
      ((check_daily_loss_limit cfgC stFresh 4 400 450).1.killed_today = true ↔
        dynamic_daily_loss_limit 400 ≤ 0)) :=
  ⟨(kill_switch_daily_persistence cfgC stKilled 3 400 450 0 tradeC .neutral).1
      ⟨rfl, rfl⟩,
    (kill_switch_daily_persistence cfgC stFresh 4 400 450 0 tradeC .neutral).2
      (by simp [stFresh])⟩

/-- C3 (amended): when every earlier check passes, a bear-regime CALL
candidate (or a bull-regime PUT candidate) is admitted if and only if
its signal score is at least 16, and below 16 it is denied with the
regime-specific reason. -/
theorem can_trade_regime_filter (cfg : RMConfig) (st : RiskState) (today : ℕ)
    (balance : ℚ) (open_positions : ℕ) (trade : Trade) (available : ℚ)
    (h1 : (check_daily_loss_limit cfg st today balance available).2.1 = false)
    (h2 : cfg.min_capital_to_trade ≤ available)
    (h3 : open_positions < dynamic_max_positions balance)
    (h4 : trade.total_cost ≤ available)
    (h5 : trade.total_cost ≤ dynamic_capital_limit cfg.capital_limit balance) :
    (trade.signal.direction = some .CALL →
      ((can_trade cfg st today balance open_positions trade available .bear).2.1
          = true ↔ 16 ≤ trade.signal.score) ∧
      (trade.signal.score < 16 →
        (can_trade cfg st today balance open_positions trade available .bear).2
          = (false, .blockedCallBearRegime))) ∧
    (trade.signal.direction = some .PUT →
      ((can_trade cfg st today balance open_positions trade available .bull).2.1
          = true ↔ 16 ≤ trade.signal.score) ∧
      (trade.signal.score < 16 →
        (can_trade cfg st today balance open_positions trade available .bull).2
          = (false, .blockedPutBullRegime))) := by
  constructor
  · intro hdir
    have hpre : ∀ regime, can_trade cfg st today balance open_positions trade
        available regime =
        if regime = .bear ∧ trade.signal.direction = some .CALL ∧
            trade.signal.score < 16 then
          ((check_daily_loss_limit cfg st today balance available).1, false,
            .blockedCallBearRegime)
        else if regime = .bull ∧ trade.signal.direction = some .PUT ∧
            trade.signal.score < 16 then
          ((check_daily_loss_limit cfg st today balance available).1, false,
            .blockedPutBullRegime)
        else ((check_daily_loss_limit cfg st today balance available).1, true,
          .ok) := by
      intro regime
      simp only [can_trade, h1, Bool.false_eq_true, if_false]
      rw [if_neg (not_lt.mpr h2), if_neg (not_le.mpr h3),
        if_neg (not_lt.mpr h4), if_neg (not_lt.mpr h5)]
    constructor
    · by_cases hs : trade.signal.score < 16
      · rw [hpre .bear, if_pos ⟨rfl, hdir, hs⟩]
        simp only [Bool.false_eq_true, false_iff, not_le]
        exact hs
      · rw [hpre .bear, if_neg (by
          rintro ⟨-, -, hlt⟩; exact hs hlt)]
        rw [if_neg (by rintro ⟨h', -, -⟩; cases h')]
        simpa using not_lt.mp hs
    · intro hs
      rw [hpre .bear, if_pos ⟨rfl, hdir, hs⟩]
  · intro hdir
    have hpre : ∀ regime, can_trade cfg st today balance open_positions trade
        available regime =
        if regime = .bear ∧ trade.signal.direction = some .CALL ∧
            trade.signal.score < 16 then
          ((check_daily_loss_limit cfg st today balance available).1, false,
            .blockedCallBearRegime)
        else if regime = .bull ∧ trade.signal.direction = some .PUT ∧
            trade.signal.score < 16 then
          ((check_daily_loss_limit cfg st today balance available).1, false,
            .blockedPutBullRegime)
        else ((check_daily_loss_limit cfg st today balance available).1, true,
          .ok) := by
      intro regime
      simp only [can_trade, h1, Bool.false_eq_true, if_false]
      rw [if_neg (not_lt.mpr h2), if_neg (not_le.mpr h3),
        if_neg (not_lt.mpr h4), if_neg (not_lt.mpr h5)]
    constructor
    · by_cases hs : trade.signal.score < 16
      · rw [hpre .bull, if_neg (by rintro ⟨h', -, -⟩; cases h'),
          if_pos ⟨rfl, hdir, hs⟩]
        simp only [Bool.false_eq_true, false_iff, not_le]
        exact hs
      · rw [hpre .bull, if_neg (by rintro ⟨h', -, -⟩; cases h'),
          if_neg (by rintro ⟨-, -, hlt⟩; exact hs hlt)]
        simpa using not_lt.mp hs
    · intro hs
      rw [hpre .bull, if_neg (by rintro ⟨h', -, -⟩; cases h'),
        if_pos ⟨rfl, hdir, hs⟩]

theorem daily_loss_limit_500 : dynamic_daily_loss_limit 500 = 70 := by
  simp only [dynamic_daily_loss_limit, round2]
  rw [show ((500 : ℚ) * (14/100) * 100) = ((7000 : ℤ) : ℚ) by norm_num,
    roundHalfEven_intCast]
  norm_num

theorem check_eval_fresh :
    check_daily_loss_limit cfgC stFresh 3 500 500 = (stFresh, false, .ok) := by
  have hpv : portfolio_value cfgC 500 500 = 500 := by
    simp [portfolio_value, cfgC]
  have hreset : reset_if_new_day stFresh 3 500 = stFresh := by
    simp [reset_if_new_day, stFresh]
  simp only [check_daily_loss_limit, hpv, hreset, daily_loss_limit_500,
    show stFresh.killed_today = false from rfl,
    show stFresh.start_of_day_capital = some 500 from rfl]
  norm_num

theorem dcl_500_500 : dynamic_capital_limit 500 500 = 500 := by
  simp only [dynamic_capital_limit]
  norm_num

theorem dmp_500 : dynamic_max_positions 500 = 3 := by
  simp only [dynamic_max_positions]
  norm_num

/-- Concrete bear-regime CALL candidate with score exactly 16. -/
def trade16 : Trade :=
  { total_cost := 100, signal := { direction := some .CALL, score := 16 } }

/-- Concrete bear-regime CALL candidate with score 17. -/
def trade17 : Trade :=
  { total_cost := 100, signal := { direction := some .CALL, score := 17 } }

/-- Concrete bear-regime CALL candidate with score 12. -/
def trade12 : Trade :=
  { total_cost := 100, signal := { direction := some .CALL, score := 12 } }

/-- Counterexample to C3 as stated: with every earlier check passing, a
bear-regime CALL whose score is exactly 16 is admitted by the code,
although 16 does not exceed the claimed override threshold of 16. -/
theorem can_trade_regime_boundary_counterexample :
    can_trade cfgC stFresh 3 500 0 trade16 500 .bear = (stFresh, true, .ok) ∧
    ¬ ((16 : ℚ) > 16) := by
  constructor
  · simp only [can_trade, check_eval_fresh, Bool.false_eq_true, if_false]
    rw [if_neg (by norm_num [cfgC]), if_neg (by rw [dmp_500]; norm_num),
      if_neg (by norm_num [trade16]),
      if_neg (by rw [show cfgC.capital_limit = 500 from rfl, dcl_500_500]; norm_num [trade16]),
      if_neg (by rintro ⟨-, -, h⟩; norm_num [trade16] at h),
      if_neg (by rintro ⟨h, -, -⟩; cases h)]
  · norm_num

/-- Witness for C3 (amended): the spec scenario, a bear-regime CALL
with score 17 is admitted and the same candidate with score 12 is
denied with the bear reason. -/
theorem can_trade_regime_filter_witness :
    (can_trade cfgC stFresh 3 500 0 trade17 500 .bear).2.1 = true ∧
    (can_trade cfgC stFresh 3 500 0 trade12 500 .bear).2
      = (false, .blockedCallBearRegime) := by
  constructor
  · have h := can_trade_regime_filter cfgC stFresh 3 500 0 trade17 500
      (by rw [check_eval_fresh]) (by norm_num [cfgC])
      (by rw [dmp_500]; norm_num) (by norm_num [trade17])
      (by rw [show cfgC.capital_limit = 500 from rfl, dcl_500_500]
          norm_num [trade17])
    exact (h.1 rfl).1.mpr (by norm_num [trade17])
  · have h := can_trade_regime_filter cfgC stFresh 3 500 0 trade12 500
      (by rw [check_eval_fresh]) (by norm_num [cfgC])
      (by rw [dmp_500]; norm_num) (by norm_num [trade12])
      (by rw [show cfgC.capital_limit = 500 from rfl, dcl_500_500]
          norm_num [trade12])
    exact (h.1 rfl).2 (by norm_num [trade12])

-- ── PositionMonitor: exit decision per position (agent.py 455-545) ──

/-- Outcome of one monitoring pass over one position. `skip` is the
bad-data guard (non-positive entry price or bid). -/
inductive ExitDecision
  | skip
  | trailingStop
  | takeProfit
  | stopLoss
  | hold
  deriving DecidableEq, Repr

/-- Confidence-scaled take-profit and stop-loss thresholds (agent.py
`_dynamic_tp_sl`). -/
def dynamic_tp_sl (signal_score : ℚ) : ℚ × ℚ :=
  if signal_score ≥ 16 then (45, 33)
  else if signal_score ≥ 14 then (42, 33)
  else (38, 33)

/-- Updated peak bid for a position (agent.py lines 501-504): the
stored peak, initialised to the entry price when absent, raised to the
current bid when that is higher. -/
def peak_price (entry_price current_bid : ℚ) (peak_before : Option ℚ) : ℚ :=
  let p0 := peak_before.getD entry_price
  if current_bid > p0 then current_bid else p0

/-- Peak unrealized gain percentage (agent.py line 506). -/
def peak_pnl_pct (entry_price current_bid : ℚ) (peak_before : Option ℚ) : ℚ :=
  (peak_price entry_price current_bid peak_before - entry_price) / entry_price * 100

/-- Pullback from the peak as a percentage of the peak (agent.py
line 520). -/
def pullback_from_peak (entry_price current_bid : ℚ) (peak_before : Option ℚ) : ℚ :=
  (peak_price entry_price current_bid peak_before - current_bid)
    / peak_price entry_price current_bid peak_before * 100

/-- Trail distance as a function of the peak gain (agent.py lines
514-519), only consulted once the peak gain has reached 20 percent. -/
def trail_pct_of_peak (peak_gain : ℚ) : ℚ :=
  if peak_gain ≥ 45 then 7
  else if peak_gain ≥ 30 then 10
  else 15

/-- Exit decision for one open position (agent.py `check_and_exit`
loop body, lines 479-545): bad-data guard, peak update, trailing stop,
then fixed take-profit and stop-loss. -/
def check_position (entry_price current_bid : ℚ) (peak_before : Option ℚ)
    (sig_score : ℚ) : ExitDecision × Option ℚ :=
  if entry_price ≤ 0 ∨ current_bid ≤ 0 then (.skip, peak_before)
  else
    let pnl_pct := (current_bid - entry_price) / entry_price * 100
    let tp_sl := dynamic_tp_sl sig_score
    let peak := peak_price entry_price current_bid peak_before
    let ppp := peak_pnl_pct entry_price current_bid peak_before
    let trailing_stop_triggered : Bool :=
      if ppp ≥ 20 then
        if pullback_from_peak entry_price current_bid peak_before
            ≥ trail_pct_of_peak ppp then true else false
      else false
    if trailing_stop_triggered then (.trailingStop, some peak)
    else if pnl_pct ≥ tp_sl.1 then (.takeProfit, some peak)
    else if pnl_pct ≤ -tp_sl.2 then (.stopLoss, some peak)
    else (.hold, some peak)

/-- C4: a trailing exit fires exactly when the peak gain has reached
20 percent and the pullback from the peak meets the tier trail
distance (7 percent at peak gain 45 or more, 10 from 30, 15 from 20);
in particular no pullback triggers it below a 20 percent peak gain,
and when the trailing condition holds it decides the exit even if the
fixed take-profit or stop-loss conditions also hold. -/
theorem trailing_stop_characterization (entry bid : ℚ) (peakB : Option ℚ)
    (score : ℚ) (he : 0 < entry) (hb : 0 < bid) :
    ((check_position entry bid peakB score).1 = .trailingStop ↔
      (20 ≤ peak_pnl_pct entry bid peakB ∧
        trail_pct_of_peak (peak_pnl_pct entry bid peakB)
          ≤ pullback_from_peak entry bid peakB)) ∧
    (45 ≤ peak_pnl_pct entry bid peakB →
      trail_pct_of_peak (peak_pnl_pct entry bid peakB) = 7) ∧
    (30 ≤ peak_pnl_pct entry bid peakB ∧ peak_pnl_pct entry bid peakB < 45 →
      trail_pct_of_peak (peak_pnl_pct entry bid peakB) = 10) ∧
    (20 ≤ peak_pnl_pct entry bid peakB ∧ peak_pnl_pct entry bid peakB < 30 →
      trail_pct_of_peak (peak_pnl_pct entry bid peakB) = 15) := by
  have hguard : ¬ (entry ≤ 0 ∨ bid ≤ 0) := by
    push_neg
    exact ⟨he, hb⟩
  refine ⟨?_, ?_, ?_, ?_⟩
  · simp only [check_position]
    rw [if_neg hguard]
    by_cases h20 : peak_pnl_pct entry bid peakB ≥ 20
    · by_cases hpull : pullback_from_peak entry bid peakB
          ≥ trail_pct_of_peak (peak_pnl_pct entry bid peakB)
      · rw [if_pos h20, if_pos hpull]
        simp only [if_true]
        exact iff_of_true trivial ⟨h20, hpull⟩
      · rw [if_pos h20, if_neg hpull]
        simp only [Bool.false_eq_true, if_false]
        constructor
        · intro hdec
          exfalso
          split_ifs at hdec
        · rintro ⟨-, hp⟩
          exact absurd hp hpull
    · rw [if_neg h20]
      simp only [Bool.false_eq_true, if_false]
      constructor
      · intro hdec
        exfalso
        split_ifs at hdec
      · rintro ⟨hp, -⟩
        exact absurd hp h20
  · intro h45
    simp only [trail_pct_of_peak]
    rw [if_pos h45]
  · rintro ⟨h30, h45⟩
    simp only [trail_pct_of_peak]
    rw [if_neg (not_le.mpr h45), if_pos h30]
  · rintro ⟨-, h30⟩
    simp only [trail_pct_of_peak]
    rw [if_neg (by linarith), if_neg (not_le.mpr h30)]

/-- Witness for C4: the spec scenario with entry 2.00, peak 2.90 and
bid 2.695 (peak gain 45 percent, pullback about 7.07 percent) fires a
trailing exit at the 7 percent tier. -/
theorem trailing_stop_characterization_witness :
    (check_position 2 (2695/1000) (some (29/10)) 17).1 = .trailingStop := by
  have hpk : peak_price 2 (2695/1000) (some (29/10)) = 29/10 := by
    simp only [peak_price, Option.getD_some]
    rw [if_neg (by norm_num)]
  have hpp : peak_pnl_pct 2 (2695/1000) (some (29/10)) = 45 := by
    simp only [peak_pnl_pct, hpk]
    norm_num
  have hpull : pullback_from_peak 2 (2695/1000) (some (29/10)) = 205/29 := by
    simp only [pullback_from_peak, hpk]
    norm_num
  exact ((trailing_stop_characterization 2 (2695/1000) (some (29/10)) 17
    (by norm_num) (by norm_num)).1).mpr
    ⟨by rw [hpp]; norm_num,
      by rw [hpp, hpull]; simp only [trail_pct_of_peak]; norm_num⟩

-- ── OptionsSelector: contract selection and sizing (agent.py 132-227) ──

/-- One option-chain row with the fields the selector reads. -/
structure RawOption where
  option_type : Dir
  strike : ℚ
  ask : ℚ
  bid : ℚ
  delta : ℚ
  deriving DecidableEq, Repr

/-- Selector configuration (config.py `max_contract_price`,
`max_trade_size`). -/
structure SelConfig where
  max_contract_price : ℚ
  max_trade_size : ℚ
  deriving DecidableEq, Repr

/-- Contract filter (agent.py lines 176-191): positive ask below the
price ceiling, absolute delta within 0.20 to 0.70, and a bid/ask
spread of at most 20 percent of the midpoint when the midpoint is
positive. -/
def passes_filters (cfg : SelConfig) (o : RawOption) : Bool :=
  if o.ask ≤ 0 ∨ o.ask > cfg.max_contract_price then false
  else if |o.delta| < 20/100 ∨ |o.delta| > 70/100 then false
  else if (o.ask + o.bid) / 2 > 0 ∧
      (o.ask - o.bid) / ((o.ask + o.bid) / 2) > 20/100 then false
  else true

/-- Best surviving contract: the filtered contract whose strike is
closest to the target, earlier rows winning ties (agent.py lines
172-198, strict improvement `diff < best_diff`). -/
def select_best (cfg : SelConfig) (target_strike : ℚ)
    (opts : List RawOption) : Option RawOption :=
  opts.foldl
    (fun best o =>
      if passes_filters cfg o then
        match best with
        | none => some o
        | some b =>
          if |o.strike - target_strike| < |b.strike - target_strike| then some o
          else some b
      else best)
    none

/-- Position sizing (agent.py lines 203-210): floor of spendable
capital over contract cost with a one-contract minimum, then one
decrement (again floored at one) when the cost overruns the capital. -/
def position_size (cfg : SelConfig) (ask_price capital : ℚ) : ℤ × ℚ :=
  let max_spend := min capital cfg.max_trade_size
  let contracts := max 1 (pytrunc (max_spend / (ask_price * 100)))
  let total_cost := (contracts : ℚ) * ask_price * 100
  if total_cost > capital then
    (max 1 (contracts - 1), (max 1 (contracts - 1) : ℤ) * ask_price * 100)
  else (contracts, total_cost)

/-- The trade candidate returned by the selector (its claim-relevant
fields). -/
structure TradeCandidate where
  direction : Dir
  strike : ℚ
  ask : ℚ
  bid : ℚ
  contracts : ℤ
  total_cost : ℚ
  deriving DecidableEq, Repr

/-- Target strike (agent.py lines 145-146): 2 percent out of the money
in the trade direction, rounded to the nearest 5 dollars. -/
def target_strike_of (direction : Dir) (current_price : ℚ) : ℚ :=
  let strike_offset : ℚ := if direction = .CALL then 102/100 else 98/100
  (roundHalfEven (current_price * strike_offset / 5) : ℚ) * 5

/-- Contract selection (agent.py `select_contract`): end-of-day
blackout, expiry lookup (modelled as a presence flag, the lookup being
external), side filtering, best-contract choice, sizing.  The wall
clock is passed as Eastern hour and minute. -/
def select_contract (cfg : SelConfig) (direction : Dir) (current_price : ℚ)
    (hour minute : ℕ) (expiry_found : Bool) (chain : List RawOption)
    (capital : ℚ) : Option TradeCandidate :=
  if hour = 15 ∧ minute ≥ 30 then none
  else if expiry_found = false then none
  else
    let side_options := chain.filter (fun o => o.option_type = direction)
    if side_options.isEmpty then none
    else
      match select_best cfg (target_strike_of direction current_price)
          side_options with
      | none => none
      | some best =>
        let sz := position_size cfg best.ask capital
        some { direction := direction, strike := best.strike, ask := best.ask,
               bid := best.bid, contracts := sz.1, total_cost := sz.2 }

theorem passes_filters_ask_pos {cfg : SelConfig} {o : RawOption}
    (h : passes_filters cfg o = true) : 0 < o.ask := by
  simp only [passes_filters] at h
  split_ifs at h with h1 h2 h3
  push_neg at h1
  exact h1.1

theorem select_best_passes (cfg : SelConfig) (target : ℚ) :
    ∀ (opts : List RawOption) (acc : Option RawOption),
      (∀ b, acc = some b → passes_filters cfg b = true) →
      ∀ b, (opts.foldl
        (fun best o =>
          if passes_filters cfg o then
            match best with
            | none => some o
            | some b =>
              if |o.strike - target| < |b.strike - target| then some o
              else some b
          else best) acc) = some b → passes_filters cfg b = true := by
  intro opts
  induction opts with
  | nil =>
    intro acc hacc b hb
    exact hacc b hb
  | cons o rest ih =>
    intro acc hacc b hb
    simp only [List.foldl_cons] at hb
    refine ih _ ?_ b hb
    intro b' hb'
    by_cases hp : passes_filters cfg o = true
    · rw [if_pos hp] at hb'
      match acc, hacc with
      | none, _ =>
        simp only at hb'
        cases hb'
        exact hp
      | some a, hacc =>
        simp only at hb'
        split_ifs at hb' with hd
        · cases hb'
          exact hp
        · cases hb'
          exact hacc _ rfl
    · rw [if_neg hp] at hb'
      exact hacc b' hb'

theorem position_size_contracts_pos (cfg : SelConfig) (ask capital : ℚ) :
    1 ≤ (position_size cfg ask capital).1 := by
  simp only [position_size]
  split_ifs
  · exact le_max_left 1 _
  · exact le_max_left 1 _

theorem position_size_cost_eq (cfg : SelConfig) (ask capital : ℚ) :
    (position_size cfg ask capital).2
      = ((position_size cfg ask capital).1 : ℚ) * ask * 100 := by
  simp only [position_size]
  split_ifs <;> simp

theorem position_size_one_of_expensive (cfg : SelConfig) {ask capital : ℚ}
    (h : 0 < ask) (hcap : capital < ask * 100) :
    (position_size cfg ask capital).1 = 1 := by
  have h100 : (0 : ℚ) < ask * 100 := by positivity
  have hms : min capital cfg.max_trade_size ≤ capital := min_le_left _ _
  have hratio : min capital cfg.max_trade_size / (ask * 100) < 1 :=
    (div_lt_one h100).mpr (lt_of_le_of_lt hms hcap)
  have ht : pytrunc (min capital cfg.max_trade_size / (ask * 100)) ≤ 0 :=
    pytrunc_nonpos_of_lt_one hratio
  have hmax : max 1 (pytrunc (min capital cfg.max_trade_size / (ask * 100))) = 1 :=
    max_eq_left (by omega)
  simp only [position_size, hmax]
  rw [if_pos (by push_cast; linarith)]
  simp

theorem position_size_le_capital (cfg : SelConfig) {ask capital : ℚ}
    (h : 0 < ask) (hcap : ask * 100 ≤ capital) :
    (position_size cfg ask capital).2 ≤ capital := by
  have h100 : (0 : ℚ) < ask * 100 := by positivity
  set ms := min capital cfg.max_trade_size with hms_def
  set t := pytrunc (ms / (ask * 100)) with ht_def
  by_cases ht : 1 ≤ t
  · have hbound : (t : ℚ) * (ask * 100) ≤ capital := by
      by_cases hms : 0 ≤ ms
      · have hratio : (0 : ℚ) ≤ ms / (ask * 100) := div_nonneg hms (le_of_lt h100)
        have hle : (t : ℚ) ≤ ms / (ask * 100) := pytrunc_le_of_nonneg hratio
        have : (t : ℚ) * (ask * 100) ≤ ms := by
          rw [← le_div_iff₀ h100]
          exact hle
        exact le_trans this (min_le_left _ _)
      · exfalso
        push_neg at hms
        have hratio : ms / (ask * 100) < 1 := by
          have : ms / (ask * 100) < 0 := div_neg_of_neg_of_pos hms h100
          linarith
        have := pytrunc_nonpos_of_lt_one hratio
        omega
    have hbound2 : (t : ℚ) * ask * 100 ≤ capital := by
      rw [mul_assoc]
      exact hbound
    have hmax : max 1 t = t := max_eq_right ht
    simp only [position_size, ← hms_def, ← ht_def, hmax]
    split_ifs with hover
    · exfalso
      exact absurd hbound2 (not_le.mpr hover)
    · exact hbound2
  · push_neg at ht
    have hmax : max 1 t = 1 := max_eq_left (by omega)
    simp only [position_size, ← hms_def, ← ht_def, hmax]
    split_ifs with hover
    · have hm0 : max 1 ((1 : ℤ) - 1) = 1 := by norm_num
      rw [hm0]
      push_cast
      linarith
    · push_cast
      linarith

theorem select_best_some_passes {cfg : SelConfig} {target : ℚ}
    {opts : List RawOption} {b : RawOption}
    (hb : select_best cfg target opts = some b) :
    passes_filters cfg b = true := by
  simp only [select_best] at hb
  exact select_best_passes cfg target opts none
    (fun b' h => Option.noConfusion h) b hb

/-- C9: whether the selector returns a candidate does not depend on the
capital argument; and every returned candidate has at least one
contract, a total cost of contracts times ask times 100, and exactly
one contract whenever a single contract already costs more than the
capital. -/
theorem select_contract_sizing (cfg : SelConfig) (direction : Dir)
    (price : ℚ) (hour minute : ℕ) (expiry_found : Bool)
    (chain : List RawOption) (cap cap2 : ℚ) :
    ((select_contract cfg direction price hour minute expiry_found chain cap).isSome
      = (select_contract cfg direction price hour minute expiry_found chain cap2).isSome) ∧
    (∀ c, select_contract cfg direction price hour minute expiry_found chain cap
        = some c →
      1 ≤ c.contracts ∧ c.total_cost = (c.contracts : ℚ) * c.ask * 100 ∧
      (cap < c.ask * 100 → c.contracts = 1)) := by
  constructor
  · simp only [select_contract]
    split_ifs
    · rfl
    · rfl
    · rfl
    · cases select_best cfg (target_strike_of direction price)
        (chain.filter fun o => o.option_type = direction) <;> rfl
  · intro c hc
    simp only [select_contract] at hc
    split_ifs at hc with h1 h2 h3
    cases hbest : select_best cfg (target_strike_of direction price)
        (chain.filter fun o => o.option_type = direction) with
    | none =>
      rw [hbest] at hc
      exact Option.noConfusion hc
    | some best =>
      rw [hbest] at hc
      simp only [Option.some.injEq] at hc
      subst hc
      refine ⟨position_size_contracts_pos cfg best.ask cap,
        position_size_cost_eq cfg best.ask cap, ?_⟩
      intro hlt
      have hpos : 0 < best.ask :=
        passes_filters_ask_pos (select_best_some_passes hbest)
      exact position_size_one_of_expensive cfg hpos hlt

/-- C1 (amended): a returned candidate never costs more than the
capital argument, provided a single contract (ask times 100) does not
already exceed that capital; the one-contract minimum makes the
unamended claim fail otherwise. -/
theorem select_contract_cost_bound (cfg : SelConfig) (direction : Dir)
    (price : ℚ) (hour minute : ℕ) (expiry_found : Bool)
    (chain : List RawOption) (cap : ℚ) (c : TradeCandidate)
    (hc : select_contract cfg direction price hour minute expiry_found chain cap
      = some c) (hask : c.ask * 100 ≤ cap) :
    c.total_cost ≤ cap := by
  simp only [select_contract] at hc
  split_ifs at hc with h1 h2 h3
  cases hbest : select_best cfg (target_strike_of direction price)
      (chain.filter fun o => o.option_type = direction) with
  | none =>
    rw [hbest] at hc
    exact Option.noConfusion hc
  | some best =>
    rw [hbest] at hc
    simp only [Option.some.injEq] at hc
    subst hc
    have hpos : 0 < best.ask :=
      passes_filters_ask_pos (select_best_some_passes hbest)
    exact position_size_le_capital cfg hpos hask

/-- Concrete selector configuration: the shipped config.py values
(contract price ceiling 3.00, max trade size 125.00). -/
def cfgS : SelConfig := { max_contract_price := 3, max_trade_size := 125 }

/-- Concrete chain row: a CALL at strike 100, ask 1.00, bid 0.90,
delta 0.40; it passes every filter. -/
def optC : RawOption :=
  { option_type := .CALL, strike := 100, ask := 1, bid := 9/10, delta := 4/10 }

theorem passes_filters_optC : passes_filters cfgS optC = true := by
  simp only [passes_filters, optC, cfgS]
  rw [abs_of_pos (by norm_num : (0 : ℚ) < 4/10)]
  rw [if_neg (by norm_num), if_neg (by norm_num), if_neg (by norm_num)]

theorem target_strike_call_100 : target_strike_of .CALL 100 = 100 := by
  simp only [target_strike_of]
  rw [if_pos trivial,
    show (100 : ℚ) * (102/100) / 5 = 102/5 by norm_num,
    roundHalfEven_eq_of_lt_half 20 (by norm_num) (by norm_num)]
  norm_num

theorem select_best_optC :
    select_best cfgS 100 [optC] = some optC := by
  simp only [select_best, List.foldl_cons, List.foldl_nil, passes_filters_optC,
    if_true]

/-- Evaluation of the selector on the concrete chain, for an arbitrary
capital: the sizing is the only capital-dependent part. -/
theorem select_contract_eval (cap : ℚ) :
    select_contract cfgS .CALL 100 10 0 true [optC] cap
      = some { direction := .CALL, strike := 100, ask := 1, bid := 9/10,
               contracts := (position_size cfgS 1 cap).1,
               total_cost := (position_size cfgS 1 cap).2 } := by
  have hfil : List.filter (fun o => o.option_type = Dir.CALL) [optC] = [optC] := by
    simp [optC]
  simp only [select_contract, hfil, target_strike_call_100]
  rw [if_neg (by norm_num), if_neg (by simp)]
  simp only [List.isEmpty_cons, Bool.false_eq_true, if_false, select_best_optC]
  rfl

theorem position_size_eval_50 : position_size cfgS 1 50 = (1, 100) := by
  have hms : min (50 : ℚ) cfgS.max_trade_size = 50 := by
    simp only [cfgS]
    norm_num
  have ht : pytrunc ((50 : ℚ) / (1 * 100)) = 0 :=
    pytrunc_eq_of_nonneg 0 (by norm_num) (by norm_num) (by norm_num)
  simp only [position_size, hms, ht]
  norm_num

theorem position_size_eval_500 : position_size cfgS 1 500 = (1, 100) := by
  have hms : min (500 : ℚ) cfgS.max_trade_size = 125 := by
    simp only [cfgS]
    norm_num
  have ht : pytrunc ((125 : ℚ) / (1 * 100)) = 1 :=
    pytrunc_eq_of_nonneg 1 (by norm_num) (by norm_num) (by norm_num)
  simp only [position_size, hms, ht]
  norm_num

/-- The candidate the selector returns on the concrete chain at
capital 50 and at capital 500 alike: one contract costing 100. -/
def candC : TradeCandidate :=
  { direction := .CALL, strike := 100, ask := 1, bid := 9/10,
    contracts := 1, total_cost := 100 }

theorem select_contract_eval_50 :
    select_contract cfgS .CALL 100 10 0 true [optC] 50 = some candC := by
  rw [select_contract_eval 50, position_size_eval_50]
  rfl

theorem select_contract_eval_500 :
    select_contract cfgS .CALL 100 10 0 true [optC] 500 = some candC := by
  rw [select_contract_eval 500, position_size_eval_500]
  rfl

/-- Counterexample to C1 as stated: at capital 50 the selector still
returns a one-contract candidate whose total cost 100 exceeds the
capital argument, because of the one-contract minimum. -/
theorem select_contract_cost_counterexample :
    select_contract cfgS .CALL 100 10 0 true [optC] 50 = some candC ∧
    candC.total_cost > 50 :=
  ⟨select_contract_eval_50, by norm_num [candC]⟩

/-- Witness for C1 (amended): at capital 500 the single-contract cost
100 fits, and the returned total cost stays within the capital. -/
theorem select_contract_cost_bound_witness :
    candC.ask * 100 ≤ (500 : ℚ) ∧ candC.total_cost ≤ (500 : ℚ) :=
  ⟨by norm_num [candC],
    select_contract_cost_bound cfgS .CALL 100 10 0 true [optC] 500 candC
      select_contract_eval_500 (by norm_num [candC])⟩

/-- Witness for C9 at a concrete chain: capital 50 versus 500 return
alike, and the capital-50 candidate has one contract costing ask times
100 although that exceeds the capital. -/
theorem select_contract_sizing_witness :
    ((select_contract cfgS .CALL 100 10 0 true [optC] 50).isSome
      = (select_contract cfgS .CALL 100 10 0 true [optC] 500).isSome) ∧
    (1 ≤ candC.contracts ∧
      candC.total_cost = (candC.contracts : ℚ) * candC.ask * 100 ∧
      ((50 : ℚ) < candC.ask * 100 → candC.contracts = 1)) :=
  ⟨(select_contract_sizing cfgS .CALL 100 10 0 true [optC] 50 500).1,
    (select_contract_sizing cfgS .CALL 100 10 0 true [optC] 50 500).2 candC
      select_contract_eval_50⟩

-- ── Bonus providers and signal ranking (insider_tracker.py 228-257,
-- catalyst_scanner.py 117-301, signal_engine.py 404-444) ──

/-- Insider-activity bonus for one ticker (insider_tracker.py lines
230-251): 2 base points, 1 for two or more filings, 2 or 1 for large
buy value, 1 for a C-suite role, capped at 5. -/
def insider_score (filing_count : ℕ) (total_buy_value : ℚ)
    (has_csuite_role : Bool) : ℕ :=
  let s := 2
  let s := s + (if filing_count ≥ 2 then 1 else 0)
  let s := s + (if total_buy_value ≥ 500000 then 2
                else if total_buy_value ≥ 100000 then 1 else 0)
  let s := s + (if has_csuite_role then 1 else 0)
  min s 5

/-- Earnings-proximity bonus (catalyst_scanner.py `score_earnings`):
4 on the day, 3 the day before, 2 within three days, 1 within seven,
0 otherwise or when unknown. -/
def score_earnings (days_until : Option ℤ) : ℕ :=
  match days_until with
  | none => 0
  | some d =>
    if d > 7 ∨ d < 0 then 0
    else if d = 0 then 4
    else if d = 1 then 3
    else if d ≤ 3 then 2
    else 1

/-- Pre-market gap readings for one ticker (catalyst_scanner.py
`get_premarket_gaps`): gap percentage and the volume multiple. -/
structure GapData where
  gap_pct : ℚ
  vol_mult : ℚ
  deriving DecidableEq, Repr

/-- Gap direction (catalyst_scanner.py line 208): CALL on a gap up,
PUT otherwise. -/
def gap_direction (gap_pct : ℚ) : Dir :=
  if gap_pct > 0 then .CALL else .PUT

/-- Gap bonus and direction (catalyst_scanner.py `score_gap`): gaps
below 2 percent are noise; 3/2/1 points by gap size, plus 1 on a
volume multiple of 2 or more, capped at 3. -/
def score_gap (gd : Option GapData) : ℕ × Option Dir :=
  match gd with
  | none => (0, none)
  | some g =>
    if |g.gap_pct| < 2 then (0, none)
    else
      let base := if |g.gap_pct| ≥ 8 then 3
                  else if |g.gap_pct| ≥ 5 then 2
                  else 1
      let boosted := if g.vol_mult ≥ 2 ∧ base > 0 then base + 1 else base
      (min boosted 3, some (gap_direction g.gap_pct))

/-- Combined catalyst result for one ticker (catalyst_scanner.py
`scan`, lines 275-293): earnings plus gap bonus capped at 6, and a
direction bias only when the gap score is at least 2. -/
structure CatResult where
  total_bonus : ℕ
  direction_bias : Option Dir
  deriving DecidableEq, Repr

def catalyst_result (days_until : Option ℤ) (gd : Option GapData) : CatResult :=
  let e := score_earnings days_until
  let g := score_gap gd
  { total_bonus := min (e + g.1) 6
    direction_bias := if g.1 ≥ 2 then g.2 else none }

/-- The signal fields involved in the bonus merge and ranking. -/
structure Signal where
  direction : Option Dir
  score : ℚ
  confluence : ℕ
  deriving DecidableEq, Repr

/-- Catalyst bonus read out of an optional catalyst entry
(signal_engine.py line 417, dictionary get with default 0). -/
def cat_bonus_of (cat : Option CatResult) : ℕ :=
  match cat with
  | some c => c.total_bonus
  | none => 0

/-- Catalyst direction bias read out of an optional catalyst entry
(signal_engine.py line 419). -/
def cat_bias_of (cat : Option CatResult) : Option Dir :=
  match cat with
  | some c => c.direction_bias
  | none => none

/-- Bonus merge for one technical signal (signal_engine.py lines
407-429): insider tickers with no direction default to CALL, a gap
bias of bonus at least 2 overrides the direction, and the score gains
the insider plus catalyst bonus, rounded to one decimal. -/
def merge_bonuses (sig : Signal) (is_insider : Bool) (insider_bonus : ℕ)
    (cat : Option CatResult) : Signal :=
  let sig1 := if is_insider = true ∧ sig.direction = none
              then { sig with direction := some Dir.CALL } else sig
  let sig2 := match cat_bias_of cat with
    | some d => if cat_bonus_of cat ≥ 2 then { sig1 with direction := some d }
                else sig1
    | none => sig1
  { sig2 with
      score := round1 (sig2.score + (insider_bonus : ℚ) + (cat_bonus_of cat : ℚ)) }

/-- One scanned ticker: the technical signal when produced, the
insider bonus entry when the ticker had qualifying insider buys, and
the catalyst entry. -/
structure ScanItem where
  tech : Option Signal
  insider : Option ℕ
  catalyst : Option CatResult
  deriving DecidableEq, Repr

/-- Collection pass of `get_top_signals` (signal_engine.py lines
404-441): tickers with a signal and a non-NONE direction get their
bonuses merged and are kept when the merged score reaches the
threshold. -/
def gather_signals (items : List ScanItem) (min_score : ℚ) : List Signal :=
  match items with
  | [] => []
  | it :: rest =>
    let tail := gather_signals rest min_score
    match it.tech with
    | none => tail
    | some sig =>
      if sig.direction.isSome then
        let merged := merge_bonuses sig it.insider.isSome (it.insider.getD 0)
          it.catalyst
        if merged.score ≥ min_score then merged :: tail else tail
      else tail

/-- Descending ranking by confluence then score (signal_engine.py
line 443). -/
def rank_le (a b : Signal) : Bool :=
  decide (b.confluence < a.confluence)
    || (decide (a.confluence = b.confluence) && decide (b.score ≤ a.score))

/-- Final ranked signal list (signal_engine.py `get_top_signals`). -/
def get_top_signals (items : List ScanItem) (min_score : ℚ) : List Signal :=
  (gather_signals items min_score).mergeSort rank_le

theorem merge_bonuses_score_eq (sig : Signal) (ins : Bool) (ib : ℕ)
    (cat : Option CatResult) :
    (merge_bonuses sig ins ib cat).score
      = round1 (sig.score + (ib : ℚ) + (cat_bonus_of cat : ℚ)) := by
  rcases cat with - | ⟨cb, bias⟩
  · by_cases h1 : ins = true ∧ sig.direction = none <;>
      simp [merge_bonuses, cat_bias_of, cat_bonus_of, h1]
  · rcases bias with - | d
    · by_cases h1 : ins = true ∧ sig.direction = none <;>
        simp [merge_bonuses, cat_bias_of, cat_bonus_of, h1]
    · by_cases h1 : ins = true ∧ sig.direction = none <;>
        by_cases h2 : cb ≥ 2 <;>
        simp [merge_bonuses, cat_bias_of, cat_bonus_of, h1, h2]

theorem merge_bonuses_direction_isSome (sig : Signal) (ins : Bool) (ib : ℕ)
    (cat : Option CatResult) (h : sig.direction.isSome) :
    (merge_bonuses sig ins ib cat).direction.isSome := by
  have h1 : ¬ (ins = true ∧ sig.direction = none) := by
    rintro ⟨-, hnone⟩
    rw [hnone] at h
    cases h
  rcases cat with - | ⟨cb, bias⟩
  · simpa [merge_bonuses, cat_bias_of, cat_bonus_of, h1] using h
  · rcases bias with - | d
    · simpa [merge_bonuses, cat_bias_of, cat_bonus_of, h1] using h
    · by_cases h2 : cb ≥ 2 <;>
        simp [merge_bonuses, cat_bias_of, cat_bonus_of, h1, h2, h]

theorem round1_round1_add_int (t : ℚ) (n : ℤ) :
    round1 (round1 t + n) = round1 t + n := by
  simp only [round1]
  rw [show ((roundHalfEven (t * 10) : ℚ) / 10 + (n : ℚ)) * 10
      = ((roundHalfEven (t * 10) + 10 * n : ℤ) : ℚ) by push_cast; ring,
    roundHalfEven_intCast]
  push_cast
  ring

/-- C7: the bonus merge never lowers a composite score: for any
technical score produced by the engine (a one-decimal rounding) and
any provider bonuses, the merged score is at least the technical
score; the insider bonus lies between 2 and 5 and the catalyst bonus
is capped at 6, so the total added bonus is never negative. -/
theorem bonus_merge_monotone (sig : Signal) (ins : Bool) (ib : ℕ)
    (cat : Option CatResult) (fc : ℕ) (val : ℚ) (csuite : Bool)
    (du : Option ℤ) (gd : Option GapData) (t : ℚ)
    (hs : sig.score = round1 t) :
    sig.score ≤ (merge_bonuses sig ins ib cat).score ∧
    2 ≤ insider_score fc val csuite ∧ insider_score fc val csuite ≤ 5 ∧
    (catalyst_result du gd).total_bonus ≤ 6 := by
  refine ⟨?_, ?_, ?_, ?_⟩
  · rw [merge_bonuses_score_eq, hs]
    have hcast : round1 t + (ib : ℚ) + (cat_bonus_of cat : ℚ)
        = round1 t + (((ib + cat_bonus_of cat : ℕ) : ℤ) : ℚ) := by
      push_cast
      ring
    rw [hcast, round1_round1_add_int]
    have hnn : (0 : ℚ) ≤ (((ib + cat_bonus_of cat : ℕ) : ℤ) : ℚ) := by positivity
    linarith
  · simp only [insider_score]
    split_ifs <;> omega
  · simp only [insider_score]
    split_ifs <;> omega
  · simp only [catalyst_result]
    exact min_le_right _ _

theorem round1_thirteen : round1 13 = 13 := by
  simp only [round1]
  rw [show ((13 : ℚ) * 10) = ((130 : ℤ) : ℚ) by norm_num, roundHalfEven_intCast]
  norm_num

/-- Concrete technical signal: CALL, score 13, full confluence. -/
def sigW : Signal := { direction := some .CALL, score := 13, confluence := 4 }

/-- Witness for C7 at a concrete signal and concrete provider data. -/
theorem bonus_merge_monotone_witness :
    sigW.score ≤ (merge_bonuses sigW true (insider_score 1 600000 true)
      (some (catalyst_result (some 1) (some { gap_pct := 3, vol_mult := 1 })))).score ∧
    2 ≤ insider_score 1 600000 true ∧ insider_score 1 600000 true ≤ 5 ∧
    (catalyst_result (some 1) (some { gap_pct := 3, vol_mult := 1 })).total_bonus ≤ 6 :=
  bonus_merge_monotone sigW true (insider_score 1 600000 true)
    (some (catalyst_result (some 1) (some { gap_pct := 3, vol_mult := 1 })))
    1 600000 true (some 1) (some { gap_pct := 3, vol_mult := 1 }) 13
    (by rw [round1_thirteen]; rfl)

/-- C8: every signal in the ranked list returned by the engine has a
non-NONE direction, and the bonus merge (whose catalyst bias override
only ever writes a concrete CALL or PUT) never erases a direction. -/
theorem top_signals_direction (items : List ScanItem) (min_score : ℚ) :
    (∀ s ∈ get_top_signals items min_score, s.direction ≠ none) ∧
    (∀ (sig : Signal) (ins : Bool) (ib : ℕ) (cat : Option CatResult),
      sig.direction ≠ none → (merge_bonuses sig ins ib cat).direction ≠ none) := by
  constructor
  · intro s hs
    simp only [get_top_signals, List.mem_mergeSort] at hs
    induction items with
    | nil => simp [gather_signals] at hs
    | cons it rest ih =>
      simp only [gather_signals] at hs
      cases ht : it.tech with
      | none =>
        simp only [ht] at hs
        exact ih hs
      | some sig =>
        simp only [ht] at hs
        by_cases hd : sig.direction.isSome
        · rw [if_pos hd] at hs
          by_cases hm : (merge_bonuses sig it.insider.isSome (it.insider.getD 0)
              it.catalyst).score ≥ min_score
          · rw [if_pos hm] at hs
            rcases List.mem_cons.mp hs with h | h
            · rw [h]
              exact Option.ne_none_iff_isSome.mpr
                (merge_bonuses_direction_isSome sig _ _ _ hd)
            · exact ih h
          · rw [if_neg hm] at hs
            exact ih hs
        · rw [if_neg hd] at hs
          exact ih hs
  · intro sig ins ib cat hdir
    exact Option.ne_none_iff_isSome.mpr
      (merge_bonuses_direction_isSome sig ins ib cat
        (Option.ne_none_iff_isSome.mp hdir))

/-- Concrete scan item wrapping the concrete signal, with no bonus
entries. -/
def itemW : ScanItem := { tech := some sigW, insider := none, catalyst := none }

theorem merge_bonuses_sigW : merge_bonuses sigW false 0 none = sigW := by
  simp only [merge_bonuses, cat_bias_of, cat_bonus_of, sigW]
  rw [if_neg (by rintro ⟨h, -⟩; cases h)]
  simp only [Nat.cast_zero, add_zero]
  rw [round1_thirteen]

/-- Witness for C8 at a concrete one-item scan. -/
theorem top_signals_direction_witness :
    sigW.direction ≠ none ∧
    (merge_bonuses sigW true 5 none).direction ≠ none :=
  ⟨(top_signals_direction [itemW] 0).1 sigW
      (by
        have hg : gather_signals [itemW] 0 = [sigW] := by
          simp only [gather_signals, itemW, Option.isSome_none,
            Option.getD_none, merge_bonuses_sigW]
          rw [if_pos (show sigW.direction.isSome = true from rfl),
            if_pos (show sigW.score ≥ (0 : ℚ) by norm_num [sigW])]
        simp only [get_top_signals, List.mem_mergeSort, hg]
        exact List.mem_singleton_self sigW),
    (top_signals_direction [itemW] 0).2 sigW true 5 none (by simp [sigW])⟩

end OptionsTrader
